import Mathlib

/-!
Verification of `lsaddr.c`: a command-line utility that lists the IPv4 and
IPv6 addresses of the host's network interfaces.  The definitions below are a
shallow embedding of the C source: `tokens` models `sscanf`/`fscanf` `%s`
whitespace tokenization, `get_interfaces` models the `/proc/net/dev` parser,
`remove_bad_interfaces` models the in-place compaction loop over the
interface array, `scan_if_inet6` models the `fscanf` loop over
`/proc/net/if_inet6`, `pretty_ip` models the `snprintf` group formatting,
and `main_run` models `main`'s control flow after argument parsing.
-/

/-- Whitespace tokenization of a character stream, as `%s` conversions see it:
maximal runs of non-whitespace characters, in order.  `acc` holds the
characters of the current token, in reverse. -/
def tokensAux : List Char → List Char → List String
  | [], acc => if acc.isEmpty then [] else [acc.reverse.asString]
  | c :: cs, acc =>
    if c.isWhitespace then
      if acc.isEmpty then tokensAux cs [] else acc.reverse.asString :: tokensAux cs []
    else tokensAux cs (c :: acc)

/-- The whitespace-delimited tokens of a string. -/
def tokens (s : String) : List String := tokensAux s.data []

/-- Decimal digits of `n` accumulated into `acc`, with explicit fuel, as
`printf`'s `%u` conversion produces them (used by `inet_ntop` for IPv4). -/
def decCharsCore : Nat → Nat → List Char → List Char
  | 0, _, acc => acc
  | fuel + 1, n, acc =>
    if n < 10 then Nat.digitChar n :: acc
    else decCharsCore fuel (n / 10) (Nat.digitChar (n % 10) :: acc)

/-- The decimal numeral of `n`, as `%u` prints it. -/
def decChars (n : Nat) : List Char := decCharsCore (n + 1) n []

/-- A 32-bit IPv4 address as four bytes, as in `struct in_addr`. -/
structure IPv4 where
  b0 : Fin 256
  b1 : Fin 256
  b2 : Fin 256
  b3 : Fin 256
deriving DecidableEq

/-- Model of `inet_ntop(AF_INET, ...)`: dotted-decimal rendering of the four bytes. -/
def ipv4_ntop (a : IPv4) : String :=
  ⟨decChars a.b0.val ++ '.' :: decChars a.b1.val ++ '.' :: decChars a.b2.val
    ++ '.' :: decChars a.b3.val⟩

/-- The `%.4s` conversion applied at byte offset `off` of `ip`: at most four
characters starting there. -/
def take4from (ip : String) (off : Nat) : String :=
  ((ip.data.drop off).take 4).asString

/-- The `snprintf` format `"%.4s:%.4s:%.4s:%.4s:%.4s:%.4s:%.4s:%.4s"` applied
to `ip`, `ip+4`, ..., `ip+28`: the IPv6 reconstruction in `main`. -/
def pretty_ip (ip : String) : String :=
  take4from ip 0 ++ ":" ++ take4from ip 4 ++ ":" ++ take4from ip 8 ++ ":"
    ++ take4from ip 12 ++ ":" ++ take4from ip 16 ++ ":" ++ take4from ip 20
    ++ ":" ++ take4from ip 24 ++ ":" ++ take4from ip 28

/-- The spec's description of the reconstruction input: "splitting the
32-hex-digit string into eight groups of 4 hex digits" — the eight
consecutive 4-character groups of the string. -/
def spec_groups (s : String) : List String :=
  [(s.data.take 4).asString, ((s.data.drop 4).take 4).asString,
   ((s.data.drop 8).take 4).asString, ((s.data.drop 12).take 4).asString,
   ((s.data.drop 16).take 4).asString, ((s.data.drop 20).take 4).asString,
   ((s.data.drop 24).take 4).asString, ((s.data.drop 28).take 4).asString]

/-- The spec's formulation of IPv6 reconstruction: the eight consecutive
4-character groups of the input joined by colons, with no zero-compression
applied. -/
def spec_reconstruct (s : String) : String :=
  String.intercalate ":" (spec_groups s)

/-- The spec's loopback classifier on the hex groups of an address: all groups
zero except the last, which equals `0001`. -/
def spec_is_loopback (groups : List String) : Bool :=
  groups.dropLast.all (fun g => g == "0000") && groups.getLastD "" == "0001"

/-- The spec's link-local classifier on the hex groups of an address: first
group in the range `fe80`–`febf`, i.e. (for lowercase-hex groups) the first
two characters are `f`,`e` and the third lies between `8` and `b`. -/
def spec_is_link_local (groups : List String) : Bool :=
  match (groups.headD "").data with
  | [c1, c2, c3, _] => c1 == 'f' && c2 == 'e' && decide ('8' ≤ c3) && decide (c3 ≤ 'b')
  | _ => false

/-- A necessary condition for a line to be in dotted-decimal IPv4 form:
every character is a decimal digit or a dot. -/
def spec_dotted_decimal (s : String) : Bool :=
  s.data.all (fun c => c.isDigit || c == '.')

/-- One data line of `/proc/net/dev`, as `get_interfaces` treats it:
`sscanf(line, "%ms", ...)` takes the first token (none on a blank line, in
which case the `calloc`ed slot stays `NULL`), and
`*index(name, ':') = '\0'` truncates at the first colon — dereferencing
`NULL` (no token, or a token without a colon) is a crash, modelled as
`none`. -/
def parse_ifc_line (line : String) : Option String :=
  match tokens line with
  | [] => none
  | t :: _ =>
    if ':' ∈ t.data then some (t.data.takeWhile (fun c => c ≠ ':')).asString else none

/-- Outcome of `get_interfaces`: a name list, a clean fatal exit via
`error(EXIT_FAILURE, ...)`, or a crash (`NULL` dereference). -/
inductive GetIfRes where
  | ok (names : List String)
  | fatal
  | crash
deriving DecidableEq

/-- The parse loop of `get_interfaces` over the data lines, stopping at the
first crashing line. -/
def parse_ifc_lines : List String → Option (List String)
  | [] => some []
  | l :: rest =>
    match parse_ifc_line l with
    | none => none
    | some n =>
      match parse_ifc_lines rest with
      | none => none
      | some ns => some (n :: ns)

/-- Model of `get_interfaces`, as a function of the lines of `/proc/net/dev`: skip two
header lines (fatal if absent), then parse each remaining line's first token,
truncated at its colon. -/
def get_interfaces (lines : List String) : GetIfRes :=
  match lines with
  | _ :: _ :: data =>
    match parse_ifc_lines data with
    | some names => .ok names
    | none => .crash
  | _ => .fatal

/-- The `fscanf(if_inet6, "%s %*s %*s %*s %*s %s", ip, ifc)` loop as a
function of the whitespace token stream of `/proc/net/if_inet6` (`%s` does
not distinguish line boundaries).  Each iteration assigns the next token to
`ip`, skips up to four tokens, assigns the following token (when present) to
`ifc` — otherwise `ifc` keeps its previous contents — and the loop body runs
whenever at least the `ip` conversion succeeded, i.e. whenever the stream was
nonempty (`fscanf` returns `EOF` only on input failure before the first
conversion). -/
def scanCore : Nat → List String → String → String → List (String × String)
  | 0, _, _, _ => []
  | fuel + 1, toks, _, ifc =>
    match toks with
    | [] => []
    | t :: rest =>
      let ifc2 := (rest.drop 4).headD ifc
      (t, ifc2) :: scanCore fuel (rest.drop 5) t ifc2

/-- The `(address, interface)` pairs scanned from the IPv6 table's token
stream, starting from the (uninitialized) buffer contents `ip0`, `ifc0`. -/
def scan_if_inet6 (toks : List String) (ip0 ifc0 : String) : List (String × String) :=
  scanCore toks.length toks ip0 ifc0

/-- The spec's description of the IPv6 table parser: per line, first token as
the packed address and last token as the interface name. -/
def spec_parse_table (ls : List (List String)) : List (String × String) :=
  ls.map (fun l => (l.headD "", l.getLastD ""))

/-- The loop of `remove_bad_interfaces`: two-index in-place compaction of the
array, reading at `in_ix`, writing probe-approved names at `out_ix`.  The
fuel is the (unchanging) array length. -/
def rbi_go (probe : String → Bool) : Nat → List String → Nat → Nat → List String × Nat
  | 0, arr, _, out_ix => (arr, out_ix)
  | fuel + 1, arr, in_ix, out_ix =>
    if h : in_ix < arr.length then
      let name := arr[in_ix]
      if probe name then rbi_go probe fuel (arr.set out_ix name) (in_ix + 1) (out_ix + 1)
      else rbi_go probe fuel arr (in_ix + 1) out_ix
    else (arr, out_ix)

/-- Model of `remove_bad_interfaces(sockfd, interfaces, &num)`: the final array
contents and the updated `num_interfaces`.  `probe` models the
`ioctl(sockfd, SIOCGIFINDEX, ...)` existence check succeeding on a name. -/
def remove_bad_interfaces (probe : String → Bool) (arr : List String) : List String × Nat :=
  rbi_go probe arr.length arr 0 0

/-- The parsed command line (`struct args`), with `main`'s initializer as
default field values. -/
structure Args where
  ip_version_specified : Bool := false
  ipv4 : Bool := false
  ipv6 : Bool := false
  include_loopback : Bool := false
  include_link_local : Bool := false
  interfaces_specified : Bool := false
  list_interfaces : Bool := false
  interfaces : List String := []
deriving DecidableEq

/-- One recognized command-line item, as dispatched by `parse_opt`. -/
inductive Opt where
  | v4
  | v6
  | include_loopback
  | include_link_local
  | list_ifcs
  | positional (names : List String)

/-- Model of `parse_opt`: the effect of one option on `struct args`. -/
def parse_opt (args : Args) : Opt → Args
  | .v4 => { args with ip_version_specified := true, ipv4 := true }
  | .v6 => { args with ip_version_specified := true, ipv6 := true }
  | .include_loopback => { args with include_loopback := true }
  | .include_link_local => { args with include_link_local := true }
  | .list_ifcs => { args with list_interfaces := true }
  | .positional names =>
    { args with interfaces_specified := true, interfaces := names }

/-- Model of `argp_parse`: fold `parse_opt` over the command line, starting from
`main`'s all-false initializer. -/
def parse_args (opts : List Opt) : Args := opts.foldl parse_opt {}

/-- The address value of an emitted record: a 32-bit IPv4 address or a
128-bit IPv6 address (kept as its packed 32-hex-digit source form). -/
inductive AddrVal where
  | v4 (a : IPv4)
  | v6 (hex : String)
deriving DecidableEq

/-- An emitted address record: (interface name, address family and value). -/
structure AddrRec where
  ifc : String
  val : AddrVal
deriving DecidableEq

/-- The line `printf` emits for a record: `inet_ntop` output for IPv4, the
`snprintf` reconstruction for IPv6. -/
def recLine : AddrRec → String
  | ⟨_, .v4 a⟩ => ipv4_ntop a
  | ⟨_, .v6 hex⟩ => pretty_ip hex

/-- The SIOCGIFCONF loop (lines 239–251): for each `(name, address)` entry,
emit it when no interface filter is active or `lfind` finds the name among
the kept names, and the requested family covers IPv4. -/
def emit_v4 (args : Args) (kept : List String) : List (String × IPv4) → List AddrRec
  | [] => []
  | e :: rest =>
    (if !args.interfaces_specified || kept.contains e.1 then
      if !args.ip_version_specified || args.ipv4 then [⟨e.1, .v4 e.2⟩] else []
    else []) ++ emit_v4 args kept rest

/-- The body of the `/proc/net/if_inet6` loop (lines 262–273): for each
scanned `(address, interface)` pair, emit it when no interface filter is
active or `lfind` finds the interface among the kept names. -/
def emit_v6 (args : Args) (kept : List String) : List (String × String) → List AddrRec
  | [] => []
  | e :: rest =>
    (if !args.interfaces_specified || kept.contains e.2 then [⟨e.2, .v6 e.1⟩] else [])
      ++ emit_v6 args kept rest

/-- The ambient system state `main` consumes: the lines of `/proc/net/dev`,
the readability of `/proc/net` and `/proc/net/if_inet6` (`access` and
`fopen`), socket and SIOCGIFCONF availability, the SIOCGIFINDEX probe, the
SIOCGIFCONF table, the token stream of `/proc/net/if_inet6`, and the
uninitialized contents of the `ip` and `ifc` buffers. -/
structure Sys where
  dev_lines : List String
  proc_net_readable : Bool
  if_inet6_readable : Bool
  socket_ok : Bool
  ifconf_ok : Bool
  probe : String → Bool
  ifconf : List (String × IPv4)
  if_inet6_toks : List String
  junk_ip : String
  junk_ifc : String

/-- The observable outcome of a run: emitted address records, stdout lines,
stderr diagnostics, and whether the process exited successfully. -/
structure Run where
  records : List AddrRec
  out : List String
  err : List String
  exitOk : Bool
deriving DecidableEq

/-- Model of `main` after argument parsing, as a function of the parsed arguments and
the system state; `none` is a crash inside `get_interfaces`.  Mirrors the
source's order: `get_interfaces`, the `--list-interfaces` early exit, the
two `access` checks, `socket`, `remove_bad_interfaces` (whose diagnostics go
to stderr), the two-step SIOCGIFCONF query, the IPv4 loop, then the IPv6
block guarded by the requested family. -/
def main_run (args : Args) (sys : Sys) : Option Run :=
  match get_interfaces sys.dev_lines with
  | .crash => none
  | .fatal => some ⟨[], [], ["error listing interfaces: could not parse file"], false⟩
  | .ok ifaces =>
    if args.list_interfaces then
      some ⟨[], ifaces, [], true⟩
    else if !sys.proc_net_readable then
      some ⟨[], [], ["something went wrong"], false⟩
    else if !sys.if_inet6_readable then
      some ⟨[], [], ["something went wrong"], false⟩
    else if !sys.socket_ok then
      some ⟨[], [], ["something went wrong"], false⟩
    else
      let baddiags := (args.interfaces.filter (fun n => !sys.probe n)).map
        (fun n => "could not open interface " ++ n)
      let rbi := remove_bad_interfaces sys.probe args.interfaces
      let kept := rbi.1.take rbi.2
      if !sys.ifconf_ok then
        some ⟨[], [], baddiags ++ ["something went wrong"], false⟩
      else
        let v4recs := emit_v4 args kept sys.ifconf
        if !args.ip_version_specified || args.ipv6 then
          let pairs := scan_if_inet6 sys.if_inet6_toks sys.junk_ip sys.junk_ifc
          let recs := v4recs ++ emit_v6 args kept pairs
          some ⟨recs, recs.map recLine, baddiags, true⟩
        else
          some ⟨v4recs, v4recs.map recLine, baddiags, true⟩

/-- A fully healthy system state with empty tables, used as the base point of
the concrete scenarios below. -/
def okSys : Sys := {
  dev_lines := ["header1", "header2"]
  proc_net_readable := true
  if_inet6_readable := true
  socket_ok := true
  ifconf_ok := true
  probe := fun _ => true
  ifconf := []
  if_inet6_toks := []
  junk_ip := ""
  junk_ifc := "" }

/-! ## Helper lemmas -/

lemma digitChar_isDigit : ∀ k, k < 10 → (Nat.digitChar k).isDigit = true := by decide

lemma mem_decCharsCore {c : Char} :
    ∀ fuel n acc, (∀ d ∈ acc, d.isDigit = true) → c ∈ decCharsCore fuel n acc →
      c.isDigit = true := by
  intro fuel
  induction fuel with
  | zero => intro n acc hacc hc; exact hacc c hc
  | succ f ih =>
    intro n acc hacc hc
    simp only [decCharsCore] at hc
    by_cases h : n < 10
    · simp only [if_pos h] at hc
      rcases List.mem_cons.mp hc with h1 | h2
      · exact h1 ▸ digitChar_isDigit n h
      · exact hacc c h2
    · simp only [if_neg h] at hc
      refine ih (n / 10) (Nat.digitChar (n % 10) :: acc) ?_ hc
      intro d hd
      rcases List.mem_cons.mp hd with h1 | h2
      · exact h1 ▸ digitChar_isDigit _ (Nat.mod_lt _ (by omega))
      · exact hacc d h2

lemma mem_decChars {c : Char} {n : Nat} (hc : c ∈ decChars n) : c.isDigit = true :=
  mem_decCharsCore _ n [] (by simp) hc

lemma isDigit_ne_colon {c : Char} (h : c.isDigit = true) : c ≠ ':' := by
  intro he
  subst he
  simp [Char.isDigit] at h

lemma colon_not_mem_ipv4_ntop (a : IPv4) : ':' ∉ (ipv4_ntop a).data := by
  intro hmem
  simp only [ipv4_ntop] at hmem
  simp only [List.mem_append, List.mem_cons] at hmem
  rcases hmem with ((h | h | h) | h | h) | h | h
  · exact isDigit_ne_colon (mem_decChars h) rfl
  · cases h
  · exact isDigit_ne_colon (mem_decChars h) rfl
  · cases h
  · exact isDigit_ne_colon (mem_decChars h) rfl
  · cases h
  · exact isDigit_ne_colon (mem_decChars h) rfl

lemma colon_mem_pretty_ip (hex : String) : ':' ∈ (pretty_ip hex).data := by
  simp only [pretty_ip, String.data_append]
  simp [show (":" : String).data = [':'] from rfl]

lemma emit_v4_eq (args : Args) (kept : List String) (l : List (String × IPv4)) :
    emit_v4 args kept l =
      if !args.ip_version_specified || args.ipv4 then
        (l.filter (fun e => !args.interfaces_specified || kept.contains e.1)).map
          (fun e => ⟨e.1, .v4 e.2⟩)
      else [] := by
  induction l with
  | nil => simp [emit_v4]
  | cons e rest ih =>
    simp only [emit_v4, ih, List.filter_cons]
    cases hfam : (!args.ip_version_specified || args.ipv4) <;>
      cases hsel : (!args.interfaces_specified || kept.contains e.1) <;>
        simp [hfam, hsel] at *

lemma emit_v6_eq (args : Args) (kept : List String) (l : List (String × String)) :
    emit_v6 args kept l =
      (l.filter (fun e => !args.interfaces_specified || kept.contains e.2)).map
        (fun e => ⟨e.2, .v6 e.1⟩) := by
  induction l with
  | nil => simp [emit_v6]
  | cons e rest ih =>
    simp only [emit_v6, ih, List.filter_cons]
    cases hsel : (!args.interfaces_specified || kept.contains e.2) <;>
      simp [hsel] at *

lemma rbi_go_invariant (probe : String → Bool) :
    ∀ (fuel : Nat) (arr : List String) (in_ix out_ix : Nat),
      arr.length ≤ in_ix + fuel → out_ix ≤ in_ix →
      (rbi_go probe fuel arr in_ix out_ix).2
          = out_ix + ((arr.drop in_ix).filter probe).length ∧
      (rbi_go probe fuel arr in_ix out_ix).1.take (rbi_go probe fuel arr in_ix out_ix).2
          = arr.take out_ix ++ (arr.drop in_ix).filter probe := by
  intro fuel
  induction fuel with
  | zero =>
    intro arr in_ix out_ix hfuel _
    have hdrop : arr.drop in_ix = [] := List.drop_eq_nil_iff.mpr (by omega)
    simp [rbi_go, hdrop]
  | succ f ih =>
    intro arr in_ix out_ix hfuel hout
    by_cases hin : in_ix < arr.length
    · have hdrop : arr.drop in_ix = arr[in_ix] :: arr.drop (in_ix + 1) :=
        List.drop_eq_getElem_cons hin
      simp only [rbi_go, dif_pos hin]
      by_cases hp : probe arr[in_ix] = true
      · rw [if_pos hp]
        have hlen : (arr.set out_ix arr[in_ix]).length ≤ in_ix + 1 + f := by
          simp; omega
        obtain ⟨ihc, iht⟩ := ih (arr.set out_ix arr[in_ix]) (in_ix + 1) (out_ix + 1)
          hlen (by omega)
        have hdropset : (arr.set out_ix arr[in_ix]).drop (in_ix + 1)
            = arr.drop (in_ix + 1) :=
          List.drop_set_of_lt _ _ (by omega)
        have htakeset : (arr.set out_ix arr[in_ix]).take (out_ix + 1)
            = arr.take out_ix ++ [arr[in_ix]] := by
          rw [List.set_eq_take_append_cons_drop, if_pos (by omega)]
          rw [show out_ix + 1 = (arr.take out_ix).length + 1 by
            simp [List.length_take]; omega]
          rw [List.take_append]
          simp
        rw [hdropset] at ihc iht
        rw [htakeset] at iht
        constructor
        · rw [ihc, hdrop, List.filter_cons_of_pos hp]
          simp; omega
        · rw [ihc] at iht
          rw [ihc, iht, hdrop, List.filter_cons_of_pos hp]
          simp
      · rw [if_neg hp]
        obtain ⟨ihc, iht⟩ := ih arr (in_ix + 1) out_ix (by omega) (by omega)
        constructor
        · rw [ihc, hdrop, List.filter_cons_of_neg hp]
        · rw [ihc] at iht
          rw [ihc, iht, hdrop, List.filter_cons_of_neg hp]
    · have hdrop : arr.drop in_ix = [] := List.drop_eq_nil_iff.mpr (by omega)
      simp [rbi_go, dif_neg hin, hdrop]

lemma remove_bad_spec (probe : String → Bool) (arr : List String) :
    (remove_bad_interfaces probe arr).2 = (arr.filter probe).length ∧
      (remove_bad_interfaces probe arr).1.take (remove_bad_interfaces probe arr).2
        = arr.filter probe := by
  obtain ⟨hc, ht⟩ := rbi_go_invariant probe arr.length arr 0 0 (by omega) (by omega)
  rw [remove_bad_interfaces]
  simp only [List.drop_zero, List.take_zero, List.nil_append, Nat.zero_add] at hc ht
  exact ⟨hc, ht⟩

lemma scanCore_congr :
    ∀ (fuel1 fuel2 : Nat) (toks : List String) (ip ifc : String),
      toks.length ≤ fuel1 → toks.length ≤ fuel2 →
      scanCore fuel1 toks ip ifc = scanCore fuel2 toks ip ifc := by
  intro fuel1
  induction fuel1 with
  | zero =>
    intro fuel2 toks ip ifc h1 _
    have : toks = [] := List.length_eq_zero.mp (by omega)
    subst this
    cases fuel2 <;> simp [scanCore]
  | succ f ih =>
    intro fuel2 toks ip ifc h1 h2
    cases toks with
    | nil => cases fuel2 <;> simp [scanCore]
    | cons t rest =>
      cases fuel2 with
      | zero => simp at h2
      | succ f2 =>
        simp only [scanCore]
        have hr : (rest.drop 5).length ≤ rest.length := by
          simp [List.length_drop]
        congr 1
        exact ih f2 (rest.drop 5) t ((rest.drop 4).headD ifc)
          (by simp at h1 ⊢; omega) (by simp at h2 ⊢; omega)

lemma scanCore_step (n : Nat) (a b c d e f : String) (rest : List String)
    (ip ifc : String) :
    scanCore (n + 1) (a :: b :: c :: d :: e :: f :: rest) ip ifc
      = (a, f) :: scanCore n rest a f := rfl

lemma scan_six_field (ip0 ifc0 : String) :
    ∀ ls : List (List String), (∀ l ∈ ls, l.length = 6) →
      scan_if_inet6 ls.flatten ip0 ifc0 = spec_parse_table ls := by
  intro ls
  induction ls generalizing ip0 ifc0 with
  | nil => intro _; simp [scan_if_inet6, scanCore, spec_parse_table]
  | cons l ls ih =>
    intro h
    have hl : l.length = 6 := h l (by simp)
    obtain ⟨a, b, c, d, e, f, rfl⟩ :
        ∃ a b c d e f, l = [a, b, c, d, e, f] := by
      match l, hl with
      | [a, b, c, d, e, f], _ => exact ⟨a, b, c, d, e, f, rfl⟩
    rw [scan_if_inet6]
    rw [show ((([a, b, c, d, e, f] : List String) :: ls).flatten)
        = a :: b :: c :: d :: e :: f :: ls.flatten by simp]
    rw [show (a :: b :: c :: d :: e :: f :: ls.flatten).length
        = (ls.flatten.length + 5) + 1 by simp]
    rw [scanCore_step]
    rw [scanCore_congr _ ls.flatten.length ls.flatten a f (by omega) (by omega)]
    rw [show scanCore ls.flatten.length ls.flatten a f
        = scan_if_inet6 ls.flatten a f from rfl]
    rw [ih a f (fun l hm => h l (by simp [hm]))]
    simp [spec_parse_table]

lemma parse_ifc_lines_wf (data : List String)
    (hwf : ∀ l ∈ data, tokens l ≠ [] ∧ ':' ∈ ((tokens l).headD "").data) :
    parse_ifc_lines data
      = some (data.map (fun l =>
          (((tokens l).headD "").data.takeWhile (fun c => c ≠ ':')).asString)) := by
  induction data with
  | nil => rfl
  | cons l rest ih =>
    obtain ⟨hne, hcol⟩ := hwf l (by simp)
    cases hts : tokens l with
    | nil => exact absurd hts hne
    | cons t ts =>
      rw [hts] at hcol
      simp only [List.headD_cons] at hcol
      have hline : parse_ifc_line l
          = some ((((tokens l).headD "").data.takeWhile (fun c => c ≠ ':')).asString) := by
        simp only [parse_ifc_line, hts, List.headD_cons]
        rw [if_pos hcol]
      simp only [parse_ifc_lines, hline, ih (fun l hm => hwf l (by simp [hm]))]
      simp

/-! ## Claims -/

/-- Claim C4: IPv6 address reconstruction is a pure, deterministic function:
for every 32-hex-digit input string it outputs the eight consecutive
4-character groups of the input joined by colons, with no zero-compression
applied. -/
theorem c4_reconstruction_eq_spec (s : String) (_h : s.length = 32) :
    pretty_ip s = spec_reconstruct s := rfl

/-- Witness for C4 at the spec's example input. -/
theorem c4_reconstruction_witness :
    ("fe800000000000000000000000000001" : String).length = 32 ∧
    pretty_ip "fe800000000000000000000000000001"
      = "fe80:0000:0000:0000:0000:0000:0000:0001" ∧
    pretty_ip "fe800000000000000000000000000001"
      = spec_reconstruct "fe800000000000000000000000000001" :=
  ⟨by decide, by decide, c4_reconstruction_eq_spec _ (by decide)⟩

/-- Claim C10: `remove_bad_interfaces` leaves the array holding exactly the
subsequence of input names whose existence probe succeeds, in their original
relative order, and sets `num_interfaces` to the length of that subsequence
(the array's live prefix of that length is exactly the filtered
subsequence). -/
theorem c10_remove_bad_filter (probe : String → Bool) (arr : List String) :
    (remove_bad_interfaces probe arr).2 = (arr.filter probe).length ∧
      (remove_bad_interfaces probe arr).1.take (remove_bad_interfaces probe arr).2
        = arr.filter probe :=
  remove_bad_spec probe arr

/-- Claim C9 (code bug): an interface-listing data line whose first token
contains no colon is not skipped: `get_interfaces` dereferences the `NULL`
returned by `index(name, ':')` and crashes. -/
theorem c9_malformed_line_crashes :
    get_interfaces ["Inter-| Receive", " face |bytes", "eth0 1000 0 0"] = .crash ∧
    parse_ifc_line "eth0 1000 0 0" = none :=
  ⟨by decide, by decide⟩

/-- Claim C8: for an interface listing with two header lines and N data lines
whose first tokens each contain a colon, `get_interfaces` returns exactly the
N data-line first tokens, each truncated at its first colon. -/
theorem c8_get_interfaces_names (h1 h2 : String) (data : List String)
    (hwf : ∀ l ∈ data, tokens l ≠ [] ∧ ':' ∈ ((tokens l).headD "").data) :
    get_interfaces (h1 :: h2 :: data)
      = .ok (data.map (fun l =>
          (((tokens l).headD "").data.takeWhile (fun c => c ≠ ':')).asString)) := by
  simp only [get_interfaces]
  rw [parse_ifc_lines_wf data hwf]

/-- Witness for C8 on a two-data-line listing. -/
theorem c8_get_interfaces_witness :
    (∀ l ∈ (["lo: 100 200", "eth0: 1 2"] : List String),
      tokens l ≠ [] ∧ ':' ∈ ((tokens l).headD "").data) ∧
    get_interfaces ("h1" :: "h2" :: ["lo: 100 200", "eth0: 1 2"])
      = .ok ((["lo: 100 200", "eth0: 1 2"] : List String).map (fun l =>
          (((tokens l).headD "").data.takeWhile (fun c => c ≠ ':')).asString)) :=
  ⟨by decide, c8_get_interfaces_names "h1" "h2" _ (by decide)⟩

/-- Claim C5 (amended): for an IPv6 address table whose lines each hold
exactly six whitespace-delimited fields, the scanner takes each line's first
token as the packed address and its last (sixth) token as the interface
name; the initial buffer contents are irrelevant. -/
theorem c5_six_field_first_last (ip0 ifc0 : String) (ls : List (List String))
    (h : ∀ l ∈ ls, l.length = 6) :
    scan_if_inet6 ls.flatten ip0 ifc0 = spec_parse_table ls :=
  scan_six_field ip0 ifc0 ls h

/-- Witness for C5 on a standard six-field loopback line. -/
theorem c5_six_field_witness :
    (∀ l ∈ ([["00000000000000000000000000000001", "01", "80", "10", "80", "lo"]] :
        List (List String)), l.length = 6) ∧
    scan_if_inet6
        ([["00000000000000000000000000000001", "01", "80", "10", "80", "lo"]] :
          List (List String)).flatten "J1" "J2"
      = spec_parse_table
          [["00000000000000000000000000000001", "01", "80", "10", "80", "lo"]] :=
  ⟨by decide, c5_six_field_first_last "J1" "J2" _ (by decide)⟩

/-- Counterexample to C5 as stated: on a seven-field line the scanner does
not take the line's last token as the interface name — it takes the sixth,
and then misparses the seventh token as the start of another record. -/
theorem c5_seven_field_line_not_first_last :
    scan_if_inet6
        (([["fe800000000000000000000000000001", "02", "40", "20", "80", "eth0",
            "extra"]] : List (List String)).flatten) "J1" "J2"
      = [("fe800000000000000000000000000001", "eth0"), ("extra", "eth0")] ∧
    spec_parse_table
        [["fe800000000000000000000000000001", "02", "40", "20", "80", "eth0",
          "extra"]]
      = [("fe800000000000000000000000000001", "extra")] ∧
    scan_if_inet6
        (([["fe800000000000000000000000000001", "02", "40", "20", "80", "eth0",
            "extra"]] : List (List String)).flatten) "J1" "J2"
      ≠ spec_parse_table
          [["fe800000000000000000000000000001", "02", "40", "20", "80", "eth0",
            "extra"]] :=
  ⟨by decide, by decide, by decide⟩

/-- Claim C3 (amended): an unreadable IPv6 address table is fatal regardless
of which address families were requested — the `access` check runs before any
address output, so the run exits non-zero having printed nothing. -/
theorem c3_unreadable_if_inet6_fatal_regardless (args : Args) (sys : Sys) (r : Run)
    (hread : sys.if_inet6_readable = false) (hlist : args.list_interfaces = false)
    (hr : main_run args sys = some r) :
    r.exitOk = false ∧ r.out = [] := by
  cases hgi : get_interfaces sys.dev_lines with
  | crash =>
    simp only [main_run, hgi] at hr
    exact absurd hr (by simp)
  | fatal =>
    simp only [main_run, hgi] at hr
    injection hr with hr
    subst hr
    exact ⟨rfl, rfl⟩
  | ok ifaces =>
    simp only [main_run, hgi, hlist, hread] at hr
    cases hpn : sys.proc_net_readable <;> simp only [hpn] at hr <;>
      simp at hr <;> subst hr <;> exact ⟨rfl, rfl⟩

/-- Counterexample to C3 as stated: with `-4` alone and an unreadable
`/proc/net/if_inet6`, the run is aborted with a non-zero exit before any IPv4
address is printed, although an IPv4 address was available. -/
theorem c3_ipv4_only_unreadable_table_still_fatal :
    main_run (parse_args [.v4])
        { okSys with
          if_inet6_readable := false
          ifconf := [("eth0", ⟨192, 168, 0, 1⟩)] }
      = some ⟨[], [], ["something went wrong"], false⟩ :=
  by decide

/-- Witness for the amended C3 at a concrete input. -/
theorem c3_unreadable_witness :
    (Run.mk [] [] ["something went wrong"] false).exitOk = false ∧
    (Run.mk [] [] ["something went wrong"] false).out = [] :=
  c3_unreadable_if_inet6_fatal_regardless (parse_args [.v4])
    { okSys with
      if_inet6_readable := false
      ifconf := [("eth0", ⟨192, 168, 0, 1⟩)] }
    _ (by decide) (by decide) (by decide)

lemma v4rec_injective :
    Function.Injective (fun e : String × IPv4 => (⟨e.1, .v4 e.2⟩ : AddrRec)) := by
  intro a b hab
  cases a
  cases b
  simpa using hab

lemma v6rec_injective :
    Function.Injective (fun e : String × String => (⟨e.2, .v6 e.1⟩ : AddrRec)) := by
  intro a b hab
  cases a
  cases b
  simp only [AddrRec.mk.injEq, AddrVal.v6.injEq] at hab
  simp [hab.1, hab.2]

lemma emit_disjoint (args : Args) (kept : List String) (l4 : List (String × IPv4))
    (l6 : List (String × String)) :
    List.Disjoint (emit_v4 args kept l4) (emit_v6 args kept l6) := by
  intro x h4 h6
  rw [emit_v4_eq] at h4
  rw [emit_v6_eq] at h6
  obtain ⟨e6, _, he6⟩ := List.mem_map.mp h6
  split_ifs at h4
  · obtain ⟨e4, _, he4⟩ := List.mem_map.mp h4
    rw [← he4] at he6
    simp at he6
  · simp at h4

lemma dotted_false_of_colon {s : String} (h : ':' ∈ s.data) :
    spec_dotted_decimal s = false := by
  rw [spec_dotted_decimal, List.all_eq_false]
  exact ⟨':', h, by decide⟩

/-- Claim C1 (code bug): the `--include-loopback` and `--include-link-local`
options are parsed but never consulted — with neither flag given, a loopback
and a link-local IPv6 address are both still emitted. -/
theorem c1_loopback_link_local_not_excluded :
    (parse_args []).include_loopback = false ∧
    (parse_args []).include_link_local = false ∧
    spec_is_loopback (spec_groups "00000000000000000000000000000001") = true ∧
    spec_is_link_local (spec_groups "fe800000000000000000000000000000") = true ∧
    main_run (parse_args [])
        { okSys with if_inet6_toks :=
            ["00000000000000000000000000000001", "01", "80", "10", "80", "lo",
             "fe800000000000000000000000000000", "02", "40", "20", "80", "eth0"] }
      = some ⟨[⟨"lo", .v6 "00000000000000000000000000000001"⟩,
              ⟨"eth0", .v6 "fe800000000000000000000000000000"⟩],
             ["0000:0000:0000:0000:0000:0000:0000:0001",
              "fe80:0000:0000:0000:0000:0000:0000:0000"], [], true⟩ :=
  ⟨by decide, by decide, by decide, by decide, by decide⟩

/-- Counterexample to C2 as stated: the program performs no deduplication, so
a duplicated IPv4 configuration entry is emitted once per occurrence — the
same (interface, family, address) triple appears twice. -/
theorem c2_duplicate_entry_emitted_twice :
    (main_run (parse_args [])
        { okSys with ifconf := [("eth0", ⟨1, 2, 3, 4⟩), ("eth0", ⟨1, 2, 3, 4⟩)] }).map
        Run.records
      = some [⟨"eth0", .v4 ⟨1, 2, 3, 4⟩⟩, ⟨"eth0", .v4 ⟨1, 2, 3, 4⟩⟩] ∧
    ¬ ([(⟨"eth0", .v4 ⟨1, 2, 3, 4⟩⟩ : AddrRec),
        ⟨"eth0", .v4 ⟨1, 2, 3, 4⟩⟩].Nodup) :=
  ⟨by decide, by decide⟩

/-- Claim C2 (amended): no record is emitted twice for the same (interface,
family, address) triple provided the IPv4 configuration table and the scanned
IPv6 table entries are themselves duplicate-free; duplicates arise only from
duplicated table entries. -/
theorem c2_nodup_records_of_nodup_tables (args : Args) (sys : Sys) (r : Run)
    (h4 : sys.ifconf.Nodup)
    (h6 : (scan_if_inet6 sys.if_inet6_toks sys.junk_ip sys.junk_ifc).Nodup)
    (hr : main_run args sys = some r) :
    r.records.Nodup := by
  cases hgi : get_interfaces sys.dev_lines with
  | crash =>
    simp only [main_run, hgi] at hr
    exact absurd hr (by simp)
  | fatal =>
    simp only [main_run, hgi] at hr
    injection hr with hr
    subst hr
    exact List.nodup_nil
  | ok ifaces =>
    simp only [main_run, hgi] at hr
    split_ifs at hr <;> injection hr with hr <;> subst hr <;>
      first
        | exact List.nodup_nil
        | · refine List.Nodup.append ?_ ?_ (emit_disjoint _ _ _ _)
            · rw [emit_v4_eq]
              split_ifs
              · exact (h4.filter _).map v4rec_injective
              · exact List.nodup_nil
            · rw [emit_v6_eq]
              exact (h6.filter _).map v6rec_injective
        | · rw [emit_v4_eq]
            split_ifs
            · exact (h4.filter _).map v4rec_injective
            · exact List.nodup_nil

/-- Witness for the amended C2 at a concrete input. -/
theorem c2_nodup_records_witness :
    (Run.mk [⟨"a", .v4 ⟨1, 2, 3, 4⟩⟩] ["1.2.3.4"] [] true).records.Nodup :=
  c2_nodup_records_of_nodup_tables (parse_args [])
    { okSys with ifconf := [("a", ⟨1, 2, 3, 4⟩)] } _
    (by decide) (by decide) (by decide)

lemma main_run_shape (args : Args) (sys : Sys) (r : Run)
    (hlist : args.list_interfaces = false)
    (hr : main_run args sys = some r) :
    ((sys.proc_net_readable = false ∨ sys.if_inet6_readable = false ∨
        sys.socket_ok = false ∨ sys.ifconf_ok = false ∨
        get_interfaces sys.dev_lines = .fatal) ∧
      r.exitOk = false ∧ r.out = [] ∧ r.records = []) ∨
    (r.exitOk = true ∧
      r.err = (args.interfaces.filter (fun n => !sys.probe n)).map
        (fun n => "could not open interface " ++ n) ∧
      r.out = r.records.map recLine ∧
      (((!args.ip_version_specified || args.ipv6) = true ∧
        r.records = emit_v4 args (args.interfaces.filter sys.probe) sys.ifconf
          ++ emit_v6 args (args.interfaces.filter sys.probe)
              (scan_if_inet6 sys.if_inet6_toks sys.junk_ip sys.junk_ifc)) ∨
       ((!args.ip_version_specified || args.ipv6) = false ∧
        r.records = emit_v4 args (args.interfaces.filter sys.probe) sys.ifconf))) := by
  have hkept : (remove_bad_interfaces sys.probe args.interfaces).1.take
      (remove_bad_interfaces sys.probe args.interfaces).2
      = args.interfaces.filter sys.probe := (remove_bad_spec sys.probe args.interfaces).2
  cases hgi : get_interfaces sys.dev_lines with
  | crash =>
    simp only [main_run, hgi] at hr
    exact absurd hr (by simp)
  | fatal =>
    simp only [main_run, hgi] at hr
    injection hr with hr
    subst hr
    exact Or.inl ⟨Or.inr (Or.inr (Or.inr (Or.inr rfl))), rfl, rfl, rfl⟩
  | ok ifaces =>
    simp only [main_run, hgi, hlist] at hr
    cases hpn : sys.proc_net_readable with
    | false =>
      simp only [hpn] at hr
      simp at hr
      subst hr
      exact Or.inl ⟨Or.inl rfl, rfl, rfl, rfl⟩
    | true =>
      cases hread : sys.if_inet6_readable with
      | false =>
        simp only [hpn, hread] at hr
        simp at hr
        subst hr
        exact Or.inl ⟨Or.inr (Or.inl rfl), rfl, rfl, rfl⟩
      | true =>
        cases hsock : sys.socket_ok with
        | false =>
          simp only [hpn, hread, hsock] at hr
          simp at hr
          subst hr
          exact Or.inl ⟨Or.inr (Or.inr (Or.inl rfl)), rfl, rfl, rfl⟩
        | true =>
          cases hifc : sys.ifconf_ok with
          | false =>
            simp only [hpn, hread, hsock, hifc] at hr
            simp at hr
            subst hr
            exact Or.inl ⟨Or.inr (Or.inr (Or.inr (Or.inl rfl))), rfl, rfl, rfl⟩
          | true =>
            simp only [hpn, hread, hsock, hifc] at hr
            cases hfam : (!args.ip_version_specified || args.ipv6) with
            | true =>
              simp only [hfam] at hr
              simp at hr
              subst hr
              rw [hkept]
              exact Or.inr ⟨rfl, rfl, by simp, Or.inl ⟨rfl, rfl⟩⟩
            | false =>
              simp only [hfam] at hr
              simp at hr
              subst hr
              rw [hkept]
              exact Or.inr ⟨rfl, rfl, by simp, Or.inr ⟨rfl, rfl⟩⟩

/-- Claim C6: with `-4` and not `-6`, no emitted output line contains a
colon; with `-6` and not `-4`, no emitted output line is in dotted-decimal
IPv4 form (every such line contains a colon, so it fails the digits-and-dots
shape). -/
theorem c6_family_filtering (args : Args) (sys : Sys) (r : Run)
    (hlist : args.list_interfaces = false)
    (hr : main_run args sys = some r) :
    (args.ip_version_specified = true → args.ipv4 = true → args.ipv6 = false →
      ∀ line ∈ r.out, ':' ∉ line.data) ∧
    (args.ip_version_specified = true → args.ipv6 = true → args.ipv4 = false →
      ∀ line ∈ r.out, spec_dotted_decimal line = false) := by
  rcases main_run_shape args sys r hlist hr with ⟨_, _, hout, _⟩ | ⟨_, _, hout, hrec⟩
  · rw [hout]
    exact ⟨fun _ _ _ line h => absurd h (List.not_mem_nil line),
           fun _ _ _ line h => absurd h (List.not_mem_nil line)⟩
  · constructor
    · intro hspec h4 h6 line hline
      rcases hrec with ⟨hfam, _⟩ | ⟨_, hrecs⟩
      · rw [hspec, h6] at hfam
        simp at hfam
      · rw [hout, hrecs] at hline
        obtain ⟨rec, hm, rfl⟩ := List.mem_map.mp hline
        rw [emit_v4_eq] at hm
        split_ifs at hm
        · obtain ⟨e, _, rfl⟩ := List.mem_map.mp hm
          exact colon_not_mem_ipv4_ntop e.2
        · simp at hm
    · intro hspec h6 h4 line hline
      rcases hrec with ⟨_, hrecs⟩ | ⟨hfam, _⟩
      · rw [hout, hrecs] at hline
        obtain ⟨rec, hm, rfl⟩ := List.mem_map.mp hline
        rcases List.mem_append.mp hm with hmem | hmem
        · rw [emit_v4_eq, hspec, h4] at hmem
          simp at hmem
        · rw [emit_v6_eq] at hmem
          obtain ⟨e, _, rfl⟩ := List.mem_map.mp hmem
          exact dotted_false_of_colon (colon_mem_pretty_ip e.1)
      · rw [hspec, h6] at hfam
        simp at hfam

/-- Witness for C6: with `-4` alone, a concrete emitted line has no colon. -/
theorem c6_family_filtering_witness :
    ':' ∉ ("10.0.0.1" : String).data :=
  (c6_family_filtering (parse_args [.v4])
      { okSys with ifconf := [("eth0", ⟨10, 0, 0, 1⟩)] }
      ⟨[⟨"eth0", .v4 ⟨10, 0, 0, 1⟩⟩], ["10.0.0.1"], [], true⟩
      (by decide) (by decide)).1
    (by decide) (by decide) (by decide) "10.0.0.1" (by decide)

/-- Claim C7: nonexistent positional interface names are each reported with a
diagnostic on stderr and removed; the run continues, exits successfully, and
every emitted record's interface is one of the remaining (probe-approved)
names. -/
theorem c7_bad_interfaces_nonfatal (args : Args) (sys : Sys) (r : Run)
    (names : List String)
    (hgi : get_interfaces sys.dev_lines = .ok names)
    (hlist : args.list_interfaces = false)
    (h1 : sys.proc_net_readable = true) (h2 : sys.if_inet6_readable = true)
    (h3 : sys.socket_ok = true) (h4c : sys.ifconf_ok = true)
    (hr : main_run args sys = some r) :
    r.exitOk = true ∧
    r.err = (args.interfaces.filter (fun n => !sys.probe n)).map
        (fun n => "could not open interface " ++ n) ∧
    (∀ rec ∈ r.records, args.interfaces_specified = true →
      rec.ifc ∈ args.interfaces.filter sys.probe) := by
  rcases main_run_shape args sys r hlist hr with ⟨hcause, _, _, _⟩ | ⟨hok, herr, _, hrec⟩
  · rcases hcause with h | h | h | h | h
    · simp [h1] at h
    · simp [h2] at h
    · simp [h3] at h
    · simp [h4c] at h
    · simp [hgi] at h
  · refine ⟨hok, herr, ?_⟩
    intro rec hmem hspec
    rcases hrec with ⟨_, hrecs⟩ | ⟨_, hrecs⟩
    · rw [hrecs] at hmem
      rcases List.mem_append.mp hmem with hm | hm
      · rw [emit_v4_eq] at hm
        split_ifs at hm
        · obtain ⟨e, he, rfl⟩ := List.mem_map.mp hm
          have hc := (List.mem_filter.mp he).2
          rw [hspec] at hc
          simp at hc
          simpa using hc
        · simp at hm
      · rw [emit_v6_eq] at hm
        obtain ⟨e, he, rfl⟩ := List.mem_map.mp hm
        have hc := (List.mem_filter.mp he).2
        rw [hspec] at hc
        simp at hc
        simpa using hc
    · rw [hrecs] at hmem
      rw [emit_v4_eq] at hmem
      split_ifs at hmem
      · obtain ⟨e, he, rfl⟩ := List.mem_map.mp hmem
        have hc := (List.mem_filter.mp he).2
        rw [hspec] at hc
        simp at hc
        simpa using hc
      · simp at hmem

/-- Witness for C7: one good and one bad positional name. -/
theorem c7_bad_interfaces_witness :
    (Run.mk [⟨"good", .v4 ⟨1, 2, 3, 4⟩⟩] ["1.2.3.4"]
        ["could not open interface bad"] true).exitOk = true ∧
    (Run.mk [⟨"good", .v4 ⟨1, 2, 3, 4⟩⟩] ["1.2.3.4"]
        ["could not open interface bad"] true).err
      = ["could not open interface bad"] ∧
    ("good" : String) ∈ (["good", "bad"] : List String).filter
        (fun s => s == "good") := by
  have h := c7_bad_interfaces_nonfatal (parse_args [.positional ["good", "bad"]])
    { okSys with
      probe := fun s => s == "good"
      ifconf := [("good", ⟨1, 2, 3, 4⟩)] }
    ⟨[⟨"good", .v4 ⟨1, 2, 3, 4⟩⟩], ["1.2.3.4"], ["could not open interface bad"], true⟩
    [] (by decide) (by decide) (by decide) (by decide) (by decide) (by decide)
    (by decide)
  exact ⟨h.1, h.2.1, h.2.2 ⟨"good", .v4 ⟨1, 2, 3, 4⟩⟩ (by decide) (by decide)⟩
